import Mathlib

/-!
Verification of the joint registry core of the MARS simulation framework
(`src/sim/src/core/JointManager.cpp`), as a shallow embedding in Lean.

Scalars (`sReal`, Eigen vector components) are modelled as rationals; the
claims checked here are about control flow, state updates and lock
discipline, not floating-point rounding.  External collaborators
(NodeManager body lookup, the physics backend, MotorManager, the
simulator scene-change sink) are modelled as parameters and as events in
an explicit call trace.
-/

namespace Mars

/-- Three-component vector, modelling `utils::Vector` (Eigen `Vector3d`). -/
structure Vec3 where
  x : ℚ
  y : ℚ
  z : ℚ
deriving DecidableEq

/-- Squared euclidean norm, modelling `Vector::squaredNorm()`. -/
def Vec3.squaredNorm (v : Vec3) : ℚ :=
  v.x * v.x + v.y * v.y + v.z * v.z

/-- Componentwise midpoint, modelling `(p1 + p2) / 2.` on Eigen vectors. -/
def Vec3.center (p q : Vec3) : Vec3 :=
  ⟨(p.x + q.x) / 2, (p.y + q.y) / 2, (p.z + q.z) / 2⟩

/-- Joint type enumeration (`JOINT_TYPE_*`); only `fixed` is branched on
in `JointManager.cpp`. -/
inductive JointType where
  | hinge
  | hinge2
  | slider
  | ball
  | universal
  | fixed
deriving DecidableEq

/-- Anchor placement enumeration (`ANCHOR_NODE1`, `ANCHOR_NODE2`,
`ANCHOR_CENTER`, plus the explicit/custom case that none of the three
branches of the resolution code matches). -/
inductive AnchorPos where
  | node1
  | node2
  | center
  | custom
deriving DecidableEq

/-- The fields of `JointData` that `JointManager.cpp` reads or writes:
`index`, `type`, `nodeIndex1`, `nodeIndex2`, `anchorPos`, `anchor`,
`axis1`, `axis2`, `angle1_offset`, `name`. -/
structure JointData where
  index : Nat
  jtype : JointType
  nodeIndex1 : Nat
  nodeIndex2 : Nat
  anchorPos : AnchorPos
  anchor : Vec3
  axis1 : Vec3
  axis2 : Vec3
  angle1_offset : ℚ
  name : String
deriving DecidableEq

/-- Modelled from the spec: `EPSILON` comes from `utils/mathUtils.h`,
which is not part of the sampled sources; it is a small positive
tolerance used in the degenerate-axis check
`jointS->axis1.squaredNorm() < EPSILON`.  Only its positivity matters to
the claims below. -/
def EPSILON : ℚ := mkRat 1 10000000000

/-- Modelled from the spec: `SimJoint` (its source is not among the
sampled files) is the runtime record built by `new SimJoint(control,
*jointS)`; it embeds the post-resolution `JointData` snapshot, and its
getters `getNodeIndex1` / `getNodeIndex2` / `getSJoint` read that
snapshot; `setAnchor` / `setAxis1` / `setAxis2` overwrite the
corresponding snapshot fields. -/
structure SimJointRec where
  sJoint : JointData
deriving DecidableEq

/-- `getNodeIndex1` of a stored record. -/
def SimJointRec.getNodeIndex1 (r : SimJointRec) : Nat :=
  r.sJoint.nodeIndex1

/-- `getNodeIndex2` of a stored record. -/
def SimJointRec.getNodeIndex2 (r : SimJointRec) : Nat :=
  r.sJoint.nodeIndex2

/-! ### `std::map` as a key-sorted association list

`simJoints` and `simJointsReload` are `std::map`s over `unsigned long`
keys; iteration order is ascending key order.  We model them as
association lists kept sorted by key; `mapInsert` is `m[k] = v`
(insert-or-assign), `mapFind` is `m.find(k)`, `mapErase` is
`m.erase(it)` at the iterator found for `k`. -/

/-- `m[k] = v` on a key-sorted association list. -/
def mapInsert {α : Type} (k : Nat) (v : α) : List (Nat × α) → List (Nat × α)
  | [] => [(k, v)]
  | (k', v') :: rest =>
    if k < k' then (k, v) :: (k', v') :: rest
    else if k = k' then (k, v) :: rest
    else (k', v') :: mapInsert k v rest

/-- `m.find(k)` on an association list. -/
def mapFind {α : Type} (k : Nat) : List (Nat × α) → Option α
  | [] => none
  | (k', v') :: rest => if k = k' then some v' else mapFind k rest

/-- `m.erase(k)` on an association list (removes the first entry with
key `k`, which in a well-formed map is the only one). -/
def mapErase {α : Type} (k : Nat) : List (Nat × α) → List (Nat × α)
  | [] => []
  | (k', v') :: rest => if k = k' then rest else (k', v') :: mapErase k rest

/-- Strict ascending key order, the `std::map` representation
invariant. -/
def keysSorted {α : Type} : List (Nat × α) → Bool
  | [] => true
  | [_] => true
  | (k, _) :: (k', v') :: rest => decide (k < k') && keysSorted ((k', v') :: rest)

/-! ### Registry state, environment, and call traces -/

/-- The state owned by `JointManager`: the `simJoints` registry, the
`simJointsReload` template map, and the `next_joint_id` counter. -/
structure JMState where
  simJoints : List (Nat × SimJointRec)
  simJointsReload : List (Nat × JointData)
  next_joint_id : Nat
deriving DecidableEq

/-- The `JointManager(ControlCenter*)` constructor: empty maps,
`next_joint_id = 1`. -/
def initState : JMState :=
  { simJoints := [], simJointsReload := [], next_joint_id := 1 }

/-- `getJointCount`: size of `simJoints`. -/
def getJointCount (st : JMState) : Nat :=
  st.simJoints.length

/-- The body lookup environment: `control->nodes->getSimNode(i)`
followed by `getPosition()`, as an optional position per node index. -/
structure Env where
  nodes : Nat → Option Vec3

/-- Events recorded along an operation: acquiring and releasing
`iMutex`, the outbound call `control->motors->removeJointFromMotors`,
the outbound call `control->sim->sceneHasChanged`, and the backend call
`JointInterface::createJoint`. -/
inductive Ev where
  | lock
  | unlock
  | callMotors (id : Nat)
  | callScene (b : Bool)
  | callBackend
deriving DecidableEq

/-- How a call to `addJoint` exited: the `return 0` at the axis guard,
an `assert` abort in the anchor-resolution block, the `return 0` after
the backend refused, or the `return jointS->index` success exit. -/
inductive AddOutcome where
  | invalidAxis
  | assertFail
  | backendFail
  | ok (id : Nat)
deriving DecidableEq

/-- The value an `addJoint` call hands back to its caller: both failure
returns hand back `0`, success hands back the new id, and an `assert`
abort never returns. -/
def AddOutcome.retVal : AddOutcome → Option Nat
  | AddOutcome.invalidAxis => some 0
  | AddOutcome.backendFail => some 0
  | AddOutcome.assertFail => none
  | AddOutcome.ok v => some v

/-- Result of an `addJoint` call: outcome, post state, the
caller-owned `JointData` (mutated through the `JointData*` argument),
and the event trace. -/
structure AddResult where
  out : AddOutcome
  st : JMState
  jointS : JointData
  tr : List Ev
deriving DecidableEq

/-- The degenerate-axis guard of `addJoint`:
`jointS->axis1.squaredNorm() < EPSILON && jointS->type !=
JOINT_TYPE_FIXED`. -/
def invalidAxis1 (d : JointData) : Bool :=
  decide (d.axis1.squaredNorm < EPSILON) && decide (d.jtype ≠ JointType.fixed)

/-- The anchor-resolution block of `addJoint` (lines 97-107): `none`
means an `assert` fires because a required node is absent; otherwise the
value `jointS->anchor` holds after the block. -/
def resolveAnchor (env : Env) (d : JointData) : Option Vec3 :=
  match d.anchorPos with
  | AnchorPos.node1 => env.nodes d.nodeIndex1
  | AnchorPos.node2 => env.nodes d.nodeIndex2
  | AnchorPos.center =>
    match env.nodes d.nodeIndex1, env.nodes d.nodeIndex2 with
    | some p1, some p2 => some (Vec3.center p1 p2)
    | _, _ => none
  | AnchorPos.custom => some d.anchor

/-- The opening lines of `addJoint`: when `reload` is false, the
caller-supplied descriptor is copied into `simJointsReload` under the
mutex, keyed by its caller-supplied `index`, before any validation. -/
def tplStore (jointS : JointData) (reload : Bool) (st : JMState) : JMState :=
  if reload then st
  else { st with simJointsReload := mapInsert jointS.index jointS st.simJointsReload }

/-- The events of the template-store prologue of `addJoint`. -/
def tplTrace (reload : Bool) : List Ev :=
  if reload then [] else [Ev.lock, Ev.unlock]

/-- `JointManager::addJoint(JointData *jointS, bool reload)`.
`backendOk` is the boolean result of the external
`newJointInterface->createJoint(jointS, i_node1, i_node2)` call. -/
def addJoint (env : Env) (backendOk : Bool) (jointS : JointData)
    (reload : Bool) (st : JMState) : AddResult :=
  let st1 := tplStore jointS reload st
  let tr1 := tplTrace reload
  if invalidAxis1 jointS then
    { out := AddOutcome.invalidAxis, st := st1, jointS := jointS, tr := tr1 }
  else
    match resolveAnchor env jointS with
    | none =>
      { out := AddOutcome.assertFail, st := st1, jointS := jointS, tr := tr1 }
    | some a =>
      let j1 := { jointS with anchor := a }
      if backendOk then
        let newId := st1.next_joint_id
        let j2 := { j1 with index := newId }
        { out := AddOutcome.ok newId,
          st := { st1 with
                  simJoints := mapInsert newId (SimJointRec.mk j2) st1.simJoints,
                  next_joint_id := newId + 1 },
          jointS := j2,
          tr := tr1 ++ [Ev.callBackend, Ev.lock, Ev.unlock, Ev.callScene false] }
      else
        { out := AddOutcome.backendFail, st := st1, jointS := j1,
          tr := tr1 ++ [Ev.callBackend] }

/-- `JointManager::removeJoint(unsigned long index)`.  A scope-based
`MutexLocker` holds `iMutex` for the whole body, so the erase, the
`removeJointFromMotors` call and the `sceneHasChanged(false)` call all
happen before the unlock at scope exit. -/
def removeJoint (st : JMState) (index : Nat) : JMState × List Ev :=
  ({ st with simJoints := mapErase index st.simJoints },
   [Ev.lock, Ev.callMotors index, Ev.callScene false, Ev.unlock])

/-- The match test of `removeJointByIDs`: the two attached node indices
equal `(id1, id2)` in either order. -/
def pairMatches (id1 id2 : Nat) (r : SimJointRec) : Bool :=
  (decide (r.getNodeIndex1 = id1) && decide (r.getNodeIndex2 = id2)) ||
  (decide (r.getNodeIndex1 = id2) && decide (r.getNodeIndex2 = id1))

/-- The scan loop of `removeJointByIDs`: key of the first record in
ascending key order whose attached pair matches. -/
def findMatch (id1 id2 : Nat) : List (Nat × SimJointRec) → Option Nat
  | [] => none
  | (k, r) :: rest =>
    if pairMatches id1 id2 r then some k else findMatch id1 id2 rest

/-- `JointManager::removeJointByIDs(id1, id2)`: scans `simJoints` under
the lock, and on the first match unlocks and delegates to
`removeJoint` for that key, then returns — at most one removal. -/
def removeJointByIDs (st : JMState) (id1 id2 : Nat) : JMState × List Ev :=
  match findMatch id1 id2 st.simJoints with
  | none => (st, [Ev.lock, Ev.unlock])
  | some k =>
    let r := removeJoint st k
    (r.1, [Ev.lock, Ev.unlock] ++ r.2)

/-- `JointManager::clearAllJoints(bool clear_all)`: under a scope-held
`MutexLocker`, clears the template map when `clear_all`, pops every
`simJoints` entry in ascending key order calling
`removeJointFromMotors` for each, calls `sceneHasChanged(false)`, and
resets `next_joint_id` to 1 — all before the unlock at scope exit. -/
def clearAllJoints (st : JMState) (clear_all : Bool) : JMState × List Ev :=
  ({ simJoints := [],
     simJointsReload := if clear_all then [] else st.simJointsReload,
     next_joint_id := 1 },
   Ev.lock :: (st.simJoints.map (fun kv => Ev.callMotors kv.1) ++
     [Ev.callScene false, Ev.unlock]))

/-- `JointManager::editJoint(JointData *jointS)`: if `jointS->index` is
an active key, overwrite that record's anchor, axis1 and axis2; silent
no-op otherwise. -/
def editJoint (st : JMState) (d : JointData) : JMState :=
  match mapFind d.index st.simJoints with
  | none => st
  | some r =>
    let r2 := SimJointRec.mk
      { r.sJoint with anchor := d.anchor, axis1 := d.axis1, axis2 := d.axis2 }
    { st with simJoints := mapInsert d.index r2 st.simJoints }

/-- `JointManager::setReloadJointOffset`: overwrite `angle1_offset` of
a stored template; silent no-op on an absent id. -/
def setReloadJointOffset (st : JMState) (id : Nat) (offset : ℚ) : JMState :=
  match mapFind id st.simJointsReload with
  | none => st
  | some d =>
    { st with simJointsReload :=
        mapInsert id { d with angle1_offset := offset } st.simJointsReload }

/-- `JointManager::setReloadJointAxis`: overwrite `axis1` of a stored
template; silent no-op on an absent id. -/
def setReloadJointAxis (st : JMState) (id : Nat) (axis : Vec3) : JMState :=
  match mapFind id st.simJointsReload with
  | none => st
  | some d =>
    { st with simJointsReload :=
        mapInsert id { d with axis1 := axis } st.simJointsReload }

/-- `JointManager::setReloadAnchor`: overwrite `anchor` of a stored
template; silent no-op on an absent id. -/
def setReloadAnchor (st : JMState) (id : Nat) (anchor : Vec3) : JMState :=
  match mapFind id st.simJointsReload with
  | none => st
  | some d =>
    { st with simJointsReload :=
        mapInsert id { d with anchor := anchor } st.simJointsReload }

/-- The per-template update of `scaleReloadJoints`: each anchor
component is multiplied by its factor in place; no other field is
touched. -/
def scaleAnchorOf (sx sy sz : ℚ) (d : JointData) : JointData :=
  { d with anchor := ⟨d.anchor.x * sx, d.anchor.y * sy, d.anchor.z * sz⟩ }

/-- `JointManager::scaleReloadJoints(x_factor, y_factor, z_factor)`:
scales every stored template's anchor componentwise; `simJoints` and
`next_joint_id` are not touched. -/
def scaleReloadJoints (st : JMState) (sx sy sz : ℚ) : JMState :=
  { st with simJointsReload :=
      st.simJointsReload.map (fun kv => (kv.1, scaleAnchorOf sx sy sz kv.2)) }

/-- Result of replaying the template map: the threaded registry state
(before writing the mutated template list back), the template list with
each processed entry's value replaced by the `JointData` as mutated
through the by-reference argument, the outcome of each processed call,
and whether the walk completed without an `assert` abort. -/
structure ReloadResult where
  st : JMState
  tmpl : List (Nat × JointData)
  outs : List AddOutcome
  alive : Bool
deriving DecidableEq

/-- The loop of `reloadJoints`: walk the template entries in ascending
key order, calling `addJoint(&iter->second, true)` on each — the value
stored in the map is mutated in place through the pointer.  `bs` feeds
the backend result of each successive call (default `true` when
exhausted).  An `assert` abort stops the walk. -/
def reloadAux (env : Env) : List Bool → JMState → List (Nat × JointData) → ReloadResult
  | _, st, [] => { st := st, tmpl := [], outs := [], alive := true }
  | bs, st, (k, d) :: rest =>
    let r := addJoint env (bs.headD true) d true st
    match r.out with
    | AddOutcome.assertFail =>
      { st := r.st, tmpl := (k, r.jointS) :: rest,
        outs := [AddOutcome.assertFail], alive := false }
    | o =>
      let q := reloadAux env bs.tail r.st rest
      { st := q.st, tmpl := (k, r.jointS) :: q.tmpl, outs := o :: q.outs,
        alive := q.alive }

/-- `JointManager::reloadJoints()`: replays every stored template with
`reload = true`; since such calls never touch `simJointsReload`, the
final template map is exactly the original entries with their values
mutated in place through the `JointData*` argument. -/
def reloadJoints (env : Env) (bs : List Bool) (st : JMState) : ReloadResult :=
  let q := reloadAux env bs st st.simJointsReload
  { q with st := { q.st with simJointsReload := q.tmpl } }

/-! ### Lock discipline over traces -/

/-- Is the event a call out to a collaborator (ActuatorNotifier or
SceneChangeSink)? -/
def isOutbound : Ev → Bool
  | Ev.callMotors _ => true
  | Ev.callScene _ => true
  | _ => false

/-- Outbound calls made while the lock depth is positive, given the
depth on entry. -/
def lockedOutboundAux : Nat → List Ev → List Ev
  | _, [] => []
  | d, Ev.lock :: r => lockedOutboundAux (d + 1) r
  | d, Ev.unlock :: r => lockedOutboundAux (d - 1) r
  | d, e :: r =>
    if 0 < d && isOutbound e then e :: lockedOutboundAux d r
    else lockedOutboundAux d r

/-- Outbound calls of a trace made while `iMutex` is held. -/
def lockedOutbound (tr : List Ev) : List Ev :=
  lockedOutboundAux 0 tr

/-! ### Operation sequences -/

/-- Registry-level events: a successful creation handing out an id, and
a full clear resetting the counter. -/
inductive REv where
  | created (id : Nat)
  | cleared
deriving DecidableEq

/-- The registry operations modelled here, each carrying the
environment responses it consumes (backend verdicts). -/
inductive Op where
  | add (backendOk : Bool) (reload : Bool) (d : JointData)
  | remove (id : Nat)
  | removeByIDs (id1 id2 : Nat)
  | clearAll (flag : Bool)
  | reloadAll (bs : List Bool)
  | edit (d : JointData)
  | scaleReload (sx sy sz : ℚ)
  | setRelOffset (id : Nat) (v : ℚ)
  | setRelAxis (id : Nat) (a : Vec3)
  | setRelAnchor (id : Nat) (a : Vec3)

/-- Registry events of a list of `addJoint` outcomes: one `created` per
success, in order. -/
def outcomeEvents (outs : List AddOutcome) : List REv :=
  outs.filterMap (fun o =>
    match o with
    | AddOutcome.ok v => some (REv.created v)
    | _ => none)

/-- One operation applied to a state: next state, registry events, and
whether the process is still alive (an `assert` abort kills it). -/
def stepOp (env : Env) (st : JMState) : Op → JMState × List REv × Bool
  | Op.add b r d =>
    let res := addJoint env b d r st
    match res.out with
    | AddOutcome.ok v => (res.st, [REv.created v], true)
    | AddOutcome.assertFail => (res.st, [], false)
    | _ => (res.st, [], true)
  | Op.remove id => ((removeJoint st id).1, [], true)
  | Op.removeByIDs a b => ((removeJointByIDs st a b).1, [], true)
  | Op.clearAll f => ((clearAllJoints st f).1, [REv.cleared], true)
  | Op.reloadAll bs =>
    let q := reloadJoints env bs st
    (q.st, outcomeEvents q.outs, q.alive)
  | Op.edit d => (editJoint st d, [], true)
  | Op.scaleReload sx sy sz => (scaleReloadJoints st sx sy sz, [], true)
  | Op.setRelOffset id v => (setReloadJointOffset st id v, [], true)
  | Op.setRelAxis id a => (setReloadJointAxis st id a, [], true)
  | Op.setRelAnchor id a => (setReloadAnchor st id a, [], true)

/-- Run a list of operations, stopping early if the process aborts. -/
def run (env : Env) : JMState → List Op → JMState × List REv
  | st, [] => (st, [])
  | st, op :: ops =>
    let s := stepOp env st op
    if s.2.2 then
      let r := run env s.1 ops
      (r.1, s.2.1 ++ r.2)
    else (s.1, s.2.1)

/-- The registry events of a run from a fresh `JointManager`. -/
def runEvents (env : Env) (ops : List Op) : List REv :=
  (run env initState ops).2

/-- The counter update induced by one registry event: a creation
increments, a clear resets to 1. -/
def ctrStep (n : Nat) : REv → Nat
  | REv.created _ => n + 1
  | REv.cleared => 1

/-- The counter value after a list of registry events, starting from
`c`. -/
def ctrFrom (c : Nat) (evs : List REv) : Nat :=
  evs.foldl ctrStep c

/-- Events are counter-consistent from `c`: every `created j` carries
exactly the counter value reached before it. -/
def evsOK (c : Nat) (evs : List REv) : Prop :=
  ∀ p j, evs[p]? = some (REv.created j) → j = ctrFrom c (evs.take p)

/-! ### Association-list lemmas -/

theorem mapFind_mapInsert_self {α : Type} (k : Nat) (v : α) (l : List (Nat × α)) :
    mapFind k (mapInsert k v l) = some v := by
  induction l with
  | nil => simp [mapInsert, mapFind]
  | cons kv rest ih =>
    obtain ⟨k', v'⟩ := kv
    by_cases h1 : k < k'
    · simp [mapInsert, h1, mapFind]
    · by_cases h2 : k = k'
      · simp [mapInsert, h1, h2, mapFind]
      · simp [mapInsert, h1, h2, mapFind, ih]

theorem mem_mapInsert {α : Type} (kv : Nat × α) (k : Nat) (v : α)
    (l : List (Nat × α)) (h : kv ∈ mapInsert k v l) : kv = (k, v) ∨ kv ∈ l := by
  induction l with
  | nil => simpa [mapInsert] using h
  | cons kv' rest ih =>
    obtain ⟨k', v'⟩ := kv'
    by_cases h1 : k < k'
    · simp only [mapInsert, if_pos h1] at h
      rcases List.mem_cons.mp h with h | h
      · exact Or.inl h
      · exact Or.inr h
    · by_cases h2 : k = k'
      · simp only [mapInsert, if_neg h1, if_pos h2] at h
        rcases List.mem_cons.mp h with h | h
        · exact Or.inl h
        · exact Or.inr (List.mem_cons_of_mem _ h)
      · simp only [mapInsert, if_neg h1, if_neg h2] at h
        rcases List.mem_cons.mp h with h | h
        · exact Or.inr (by simp [h])
        · rcases ih h with h' | h'
          · exact Or.inl h'
          · exact Or.inr (List.mem_cons_of_mem _ h')

theorem mem_mapErase {α : Type} (kv : Nat × α) (k : Nat)
    (l : List (Nat × α)) (h : kv ∈ mapErase k l) : kv ∈ l := by
  induction l with
  | nil => simp [mapErase] at h
  | cons kv' rest ih =>
    obtain ⟨k', v'⟩ := kv'
    by_cases h1 : k = k'
    · simp only [mapErase, if_pos h1] at h
      exact List.mem_cons_of_mem _ h
    · simp only [mapErase, if_neg h1] at h
      rcases List.mem_cons.mp h with h | h
      · simp [h]
      · exact List.mem_cons_of_mem _ (ih h)

theorem mapFind_mem {α : Type} (k : Nat) (v : α) (l : List (Nat × α))
    (h : mapFind k l = some v) : (k, v) ∈ l := by
  induction l with
  | nil => simp [mapFind] at h
  | cons kv rest ih =>
    obtain ⟨k', v'⟩ := kv
    by_cases h1 : k = k'
    · simp [mapFind, h1] at h
      simp [h1, h]
    · simp [mapFind, h1] at h
      exact List.mem_cons_of_mem _ (ih h)

theorem mapErase_length_le {α : Type} (k : Nat) (l : List (Nat × α)) :
    (mapErase k l).length ≤ l.length := by
  induction l with
  | nil => simp [mapErase]
  | cons kv rest ih =>
    obtain ⟨k', v'⟩ := kv
    by_cases h1 : k = k'
    · simp [mapErase, h1]
    · simp only [mapErase, if_neg h1, List.length_cons]
      omega

theorem length_le_mapErase {α : Type} (k : Nat) (l : List (Nat × α)) :
    l.length ≤ (mapErase k l).length + 1 := by
  induction l with
  | nil => simp [mapErase]
  | cons kv rest ih =>
    obtain ⟨k', v'⟩ := kv
    by_cases h1 : k = k'
    · simp [mapErase, h1]
    · simp only [mapErase, if_neg h1, List.length_cons]
      omega

theorem mapFind_mapErase_ne {α : Type} (k k' : Nat) (l : List (Nat × α))
    (h : k' ≠ k) : mapFind k' (mapErase k l) = mapFind k' l := by
  induction l with
  | nil => simp [mapErase]
  | cons kv rest ih =>
    obtain ⟨ka, va⟩ := kv
    by_cases h1 : k = ka
    · subst h1
      simp [mapErase, mapFind, h]
    · by_cases h2 : k' = ka
      · simp [mapErase, h1, mapFind, h2]
      · simp [mapErase, h1, mapFind, h2, ih]

theorem keysSorted_tail {α : Type} (kv : Nat × α) (l : List (Nat × α))
    (h : keysSorted (kv :: l) = true) : keysSorted l = true := by
  cases l with
  | nil => simp [keysSorted]
  | cons kv' rest =>
    obtain ⟨k, v⟩ := kv
    obtain ⟨k', v'⟩ := kv'
    simp only [keysSorted, Bool.and_eq_true, decide_eq_true_eq] at h
    exact h.2

theorem keysSorted_head_lt {α : Type} (k : Nat) (v : α) (l : List (Nat × α))
    (h : keysSorted ((k, v) :: l) = true) : ∀ kv ∈ l, k < kv.1 := by
  induction l generalizing k v with
  | nil => simp
  | cons kv' rest ih =>
    obtain ⟨k', v'⟩ := kv'
    simp only [keysSorted, Bool.and_eq_true, decide_eq_true_eq] at h
    intro kv hkv
    rcases List.mem_cons.mp hkv with h' | h'
    · subst h'
      exact h.1
    · exact Nat.lt_trans h.1 (ih k' v' h.2 kv h')

theorem mapErase_all_gt {α : Type} (k : Nat) (l : List (Nat × α))
    (h : ∀ kv ∈ l, k < kv.1) : mapErase k l = l := by
  induction l with
  | nil => simp [mapErase]
  | cons kv rest ih =>
    obtain ⟨k', v'⟩ := kv
    have hk : k < k' := h (k', v') (by simp)
    have hne : ¬(k = k') := Nat.ne_of_lt hk
    simp only [mapErase, if_neg hne, List.cons.injEq, true_and]
    exact ih (fun kv hkv => h kv (List.mem_cons_of_mem _ hkv))

theorem mapErase_idem {α : Type} (k : Nat) (l : List (Nat × α))
    (h : keysSorted l = true) : mapErase k (mapErase k l) = mapErase k l := by
  induction l with
  | nil => simp [mapErase]
  | cons kv rest ih =>
    obtain ⟨k', v'⟩ := kv
    by_cases h1 : k = k'
    · subst h1
      simp only [mapErase, if_pos rfl]
      exact mapErase_all_gt k rest (keysSorted_head_lt k v' rest h)
    · simp only [mapErase, if_neg h1]
      rw [ih (keysSorted_tail _ _ h)]

/-! ### Branch lemmas for `addJoint` -/

theorem tplStore_next_joint_id (d : JointData) (reload : Bool) (st : JMState) :
    (tplStore d reload st).next_joint_id = st.next_joint_id := by
  cases reload <;> simp [tplStore]

theorem tplStore_simJoints (d : JointData) (reload : Bool) (st : JMState) :
    (tplStore d reload st).simJoints = st.simJoints := by
  cases reload <;> simp [tplStore]

theorem addJoint_invalid (env : Env) (b : Bool) (d : JointData) (reload : Bool)
    (st : JMState) (h : invalidAxis1 d = true) :
    addJoint env b d reload st =
      { out := AddOutcome.invalidAxis, st := tplStore d reload st, jointS := d,
        tr := tplTrace reload } := by
  simp [addJoint, h]

theorem addJoint_assert (env : Env) (b : Bool) (d : JointData) (reload : Bool)
    (st : JMState) (h1 : invalidAxis1 d = false)
    (h2 : resolveAnchor env d = none) :
    addJoint env b d reload st =
      { out := AddOutcome.assertFail, st := tplStore d reload st, jointS := d,
        tr := tplTrace reload } := by
  simp [addJoint, h1, h2]

theorem addJoint_backendFail (env : Env) (d : JointData) (reload : Bool)
    (st : JMState) (a : Vec3) (h1 : invalidAxis1 d = false)
    (h2 : resolveAnchor env d = some a) :
    addJoint env false d reload st =
      { out := AddOutcome.backendFail, st := tplStore d reload st,
        jointS := { d with anchor := a },
        tr := tplTrace reload ++ [Ev.callBackend] } := by
  simp [addJoint, h1, h2]

theorem addJoint_ok (env : Env) (d : JointData) (reload : Bool)
    (st : JMState) (a : Vec3) (h1 : invalidAxis1 d = false)
    (h2 : resolveAnchor env d = some a) :
    addJoint env true d reload st =
      { out := AddOutcome.ok st.next_joint_id,
        st := { simJoints :=
                  mapInsert st.next_joint_id
                    (SimJointRec.mk { d with anchor := a, index := st.next_joint_id })
                    st.simJoints,
                simJointsReload := (tplStore d reload st).simJointsReload,
                next_joint_id := st.next_joint_id + 1 },
        jointS := { d with anchor := a, index := st.next_joint_id },
        tr := tplTrace reload ++ [Ev.callBackend, Ev.lock, Ev.unlock, Ev.callScene false] } := by
  cases reload <;> simp [addJoint, h1, h2, tplStore]

/-! ### Concrete inputs used to instantiate the theorems -/

/-- A body lookup with a single body, index 3, at position (1, 2, 3). -/
def env0 : Env := ⟨fun n => if n = 3 then some ⟨1, 2, 3⟩ else none⟩

/-- A hinge between body 3 and the environment, anchored at body 3. -/
def d0 : JointData :=
  { index := 7, jtype := JointType.hinge, nodeIndex1 := 3, nodeIndex2 := 0,
    anchorPos := AnchorPos.node1, anchor := ⟨0, 0, 0⟩, axis1 := ⟨0, 0, 1⟩,
    axis2 := ⟨0, 1, 0⟩, angle1_offset := 0, name := "j" }

/-- A descriptor with a degenerate first axis and a non-fixed type. -/
def dZero : JointData := { d0 with axis1 := ⟨0, 0, 0⟩ }

/-- A fixed-type descriptor with a degenerate first axis. -/
def dFix : JointData :=
  { d0 with
      axis1 := ⟨0, 0, 0⟩
      jtype := JointType.fixed
      anchorPos := AnchorPos.custom }

/-- A descriptor whose anchor policy requires body 2, which `env0`
cannot resolve. -/
def dMiss : JointData := { d0 with anchorPos := AnchorPos.node2, nodeIndex2 := 2 }

/-- The registry after one successful creation from `d0`. -/
def stA : JMState := (addJoint env0 true d0 false initState).st

/-! ### Claim theorems -/

/-- Claim C8: for every factors (sx, sy, sz), `scaleReloadJoints`
multiplies the anchor point of every stored reload template
componentwise by (sx, sy, sz), while leaving the templates' axes, all
active records, and `next_joint_id` unchanged. -/
theorem C8_scaleReloadTemplates (st : JMState) (sx sy sz : ℚ) :
    (scaleReloadJoints st sx sy sz).simJoints = st.simJoints ∧
    (scaleReloadJoints st sx sy sz).next_joint_id = st.next_joint_id ∧
    (scaleReloadJoints st sx sy sz).simJointsReload.map Prod.fst
      = st.simJointsReload.map Prod.fst ∧
    (scaleReloadJoints st sx sy sz).simJointsReload.map (fun kv => kv.2.anchor)
      = st.simJointsReload.map (fun kv =>
          Vec3.mk (kv.2.anchor.x * sx) (kv.2.anchor.y * sy) (kv.2.anchor.z * sz)) ∧
    (scaleReloadJoints st sx sy sz).simJointsReload.map (fun kv => kv.2.axis1)
      = st.simJointsReload.map (fun kv => kv.2.axis1) ∧
    (scaleReloadJoints st sx sy sz).simJointsReload.map (fun kv => kv.2.axis2)
      = st.simJointsReload.map (fun kv => kv.2.axis2) := by
  refine ⟨rfl, rfl, ?_, ?_, ?_, ?_⟩ <;>
    simp [scaleReloadJoints, scaleAnchorOf, List.map_map, Function.comp]

/-- Claim C6: `removeJoint(id)` is idempotent — a second call removes
nothing and leaves the registry state identical — and on every call,
present or absent id alike, the trace contains the
`removeJointFromMotors(id)` call and the `sceneHasChanged(false)`
notification. -/
theorem C6_removeJoint_idempotent (st : JMState) (id : Nat)
    (h : keysSorted st.simJoints = true) :
    (removeJoint (removeJoint st id).1 id).1 = (removeJoint st id).1 ∧
    (removeJoint st id).2
      = [Ev.lock, Ev.callMotors id, Ev.callScene false, Ev.unlock] ∧
    (removeJoint (removeJoint st id).1 id).2
      = [Ev.lock, Ev.callMotors id, Ev.callScene false, Ev.unlock] := by
  refine ⟨?_, rfl, rfl⟩
  simp [removeJoint, mapErase_idem id st.simJoints h]

/-- Witness for C6 at a one-joint registry and its assigned id 1. -/
theorem C6_removeJoint_idempotent_witness :
    keysSorted stA.simJoints = true ∧
    (removeJoint (removeJoint stA 1).1 1).1 = (removeJoint stA 1).1 :=
  ⟨by with_unfolding_all decide,
   (C6_removeJoint_idempotent stA 1 (by with_unfolding_all decide)).1⟩

/-- The scan of `removeJointByIDs` returns the key of the first record
in ascending key order matching the unordered pair, with no earlier
record matching. -/
theorem findMatch_first (id1 id2 : Nat) (l : List (Nat × SimJointRec)) (k : Nat)
    (h : findMatch id1 id2 l = some k) :
    ∃ p r, l[p]? = some (k, r) ∧ pairMatches id1 id2 r = true ∧
      ∀ (q : Nat) (kv : Nat × SimJointRec), q < p → l[q]? = some kv →
        pairMatches id1 id2 kv.2 = false := by
  induction l generalizing k with
  | nil => simp [findMatch] at h
  | cons kv rest ih =>
    obtain ⟨k', r'⟩ := kv
    by_cases hm : pairMatches id1 id2 r' = true
    · simp only [findMatch, if_pos hm, Option.some.injEq] at h
      subst h
      exact ⟨0, r', by simp, hm, fun q kv hq _ => absurd hq (Nat.not_lt_zero q)⟩
    · simp only [findMatch, if_neg hm] at h
      obtain ⟨p, r, hp, hmr, hfirst⟩ := ih k h
      refine ⟨p + 1, r, by simp only [List.getElem?_cons_succ]; exact hp, hmr, ?_⟩
      intro q kv hq hkv
      cases q with
      | zero =>
        simp only [List.getElem?_cons_zero, Option.some.injEq] at hkv
        subst hkv
        simpa using hm
      | succ q' =>
        simp only [List.getElem?_cons_succ] at hkv
        exact hfirst q' kv (Nat.lt_of_succ_lt_succ hq) hkv

/-- Claim C7: `removeJointByIDs` removes at most one record per call —
the first record in iteration order whose attached node indices equal
the pair in either order; every other record keeps its mapping, the
template map and the id counter are untouched, and with no match the
registry is unchanged. -/
theorem C7_removeByPair_single_removal (st : JMState) (id1 id2 : Nat) :
    (findMatch id1 id2 st.simJoints = none →
      (removeJointByIDs st id1 id2).1 = st) ∧
    (∀ k, findMatch id1 id2 st.simJoints = some k →
      ((removeJointByIDs st id1 id2).1.simJoints = mapErase k st.simJoints ∧
       (removeJointByIDs st id1 id2).1.simJointsReload = st.simJointsReload ∧
       (removeJointByIDs st id1 id2).1.next_joint_id = st.next_joint_id ∧
       (mapErase k st.simJoints).length ≤ st.simJoints.length ∧
       st.simJoints.length ≤ (mapErase k st.simJoints).length + 1 ∧
       (∀ k', k' ≠ k →
         mapFind k' (removeJointByIDs st id1 id2).1.simJoints
           = mapFind k' st.simJoints) ∧
       (∃ p r, st.simJoints[p]? = some (k, r) ∧ pairMatches id1 id2 r = true ∧
         ∀ (q : Nat) (kv : Nat × SimJointRec), q < p →
           st.simJoints[q]? = some kv →
           pairMatches id1 id2 kv.2 = false))) := by
  constructor
  · intro h
    simp [removeJointByIDs, h]
  · intro k h
    refine ⟨by simp [removeJointByIDs, h, removeJoint],
            by simp [removeJointByIDs, h, removeJoint],
            by simp [removeJointByIDs, h, removeJoint],
            mapErase_length_le k st.simJoints,
            length_le_mapErase k st.simJoints, ?_, findMatch_first id1 id2 _ k h⟩
    intro k' hk'
    simp only [removeJointByIDs, h, removeJoint]
    exact mapFind_mapErase_ne k k' st.simJoints hk'

/-- Witness for C7: the no-match branch on the empty registry, and the
match branch on a one-joint registry where the pair (3, 0) matches the
joint with id 1. -/
theorem C7_removeByPair_single_removal_witness :
    (removeJointByIDs initState 4 5).1 = initState ∧
    (removeJointByIDs stA 3 0).1.simJoints = mapErase 1 stA.simJoints ∧
    (removeJointByIDs stA 3 0).1.simJointsReload = stA.simJointsReload :=
  ⟨(C7_removeByPair_single_removal initState 4 5).1 (by decide),
   ((C7_removeByPair_single_removal stA 3 0).2 1 (by with_unfolding_all decide)).1,
   ((C7_removeByPair_single_removal stA 3 0).2 1 (by with_unfolding_all decide)).2.1⟩

/-- Claim C5 as stated is false: `removeJoint` holds `iMutex` (through
the scope-based `MutexLocker`) at the moment it calls
`removeJointFromMotors` and `sceneHasChanged`. -/
theorem C5_counterexample :
    lockedOutbound (removeJoint initState 5).2
      = [Ev.callMotors 5, Ev.callScene false] ∧
    lockedOutbound (removeJoint initState 5).2 ≠ [] := by
  exact ⟨rfl, by decide⟩

/-- Claim C5 amended: `addJoint` releases the mutex before its
outbound `sceneHasChanged` call (its locked outbound set is empty), but
`removeJoint` and `clearAllJoints` perform all their outbound calls —
`removeJointFromMotors` and `sceneHasChanged` — while holding the
mutex, and `removeJointByIDs` inherits the violation through its
delegation to `removeJoint`. -/
theorem C5_lock_discipline (env : Env) (b reload : Bool) (d : JointData)
    (st : JMState) (id id1 id2 : Nat) (flag : Bool) :
    lockedOutbound (addJoint env b d reload st).tr = [] ∧
    lockedOutbound (removeJoint st id).2
      = [Ev.callMotors id, Ev.callScene false] ∧
    lockedOutbound (clearAllJoints st flag).2
      = st.simJoints.map (fun kv => Ev.callMotors kv.1) ++ [Ev.callScene false] ∧
    lockedOutbound (removeJointByIDs st id1 id2).2
      = (match findMatch id1 id2 st.simJoints with
         | none => []
         | some k => [Ev.callMotors k, Ev.callScene false]) := by
  refine ⟨?_, rfl, ?_, ?_⟩
  · cases hax : invalidAxis1 d with
    | true =>
      rw [addJoint_invalid env b d reload st hax]
      cases reload <;> rfl
    | false =>
      cases hanch : resolveAnchor env d with
      | none =>
        rw [addJoint_assert env b d reload st hax hanch]
        cases reload <;> rfl
      | some a =>
        cases b with
        | false =>
          rw [addJoint_backendFail env d reload st a hax hanch]
          cases reload <;> rfl
        | true =>
          rw [addJoint_ok env d reload st a hax hanch]
          cases reload <;> rfl
  · show lockedOutboundAux 0 _ = _
    simp only [clearAllJoints, lockedOutboundAux]
    induction st.simJoints with
    | nil => rfl
    | cons kv rest ih => simpa [lockedOutboundAux, isOutbound] using ih
  · cases h : findMatch id1 id2 st.simJoints with
    | none => simp [removeJointByIDs, h, lockedOutbound, lockedOutboundAux]
    | some k => simp [removeJointByIDs, h, removeJoint, lockedOutbound, lockedOutboundAux, isOutbound]

theorem EPSILON_pos : (0 : ℚ) < EPSILON := by
  with_unfolding_all decide

/-- Claim C1: when the backend `createJoint` step refuses, `addJoint`
returns the failure value 0, `next_joint_id` is not advanced, no record
is inserted into `simJoints`, and the reload template written at the
start of the call (when `reload` is false) is retained in
`simJointsReload`. -/
theorem C1_backend_failure (env : Env) (st : JMState) (d : JointData)
    (reload : Bool) (haxis : invalidAxis1 d = false)
    (hanch : (resolveAnchor env d).isSome = true) :
    (addJoint env false d reload st).out = AddOutcome.backendFail ∧
    (addJoint env false d reload st).out.retVal = some 0 ∧
    (addJoint env false d reload st).st.next_joint_id = st.next_joint_id ∧
    (addJoint env false d reload st).st.simJoints = st.simJoints ∧
    (reload = false →
      (addJoint env false d reload st).st.simJointsReload
        = mapInsert d.index d st.simJointsReload ∧
      mapFind d.index (addJoint env false d reload st).st.simJointsReload
        = some d) := by
  obtain ⟨a, ha⟩ := Option.isSome_iff_exists.mp hanch
  rw [addJoint_backendFail env d reload st a haxis ha]
  refine ⟨rfl, rfl, tplStore_next_joint_id d reload st,
          tplStore_simJoints d reload st, ?_⟩
  intro hr
  subst hr
  exact ⟨by simp [tplStore], by simp [tplStore, mapFind_mapInsert_self]⟩

/-- Witness for C1: backend refusal on a fresh registry with the valid
hinge descriptor `d0`. -/
theorem C1_backend_failure_witness :
    (addJoint env0 false d0 false initState).out = AddOutcome.backendFail ∧
    (addJoint env0 false d0 false initState).st.next_joint_id
      = initState.next_joint_id ∧
    mapFind d0.index (addJoint env0 false d0 false initState).st.simJointsReload
      = some d0 :=
  ⟨(C1_backend_failure env0 initState d0 false
      (by with_unfolding_all decide) (by decide)).1,
   (C1_backend_failure env0 initState d0 false
      (by with_unfolding_all decide) (by decide)).2.2.1,
   ((C1_backend_failure env0 initState d0 false
      (by with_unfolding_all decide) (by decide)).2.2.2.2 rfl).2⟩

/-- Claim C4: a zero-norm `axis1` with a non-fixed type is rejected
with return value 0, consuming no id, inserting no record and leaving
`getJointCount` unchanged; a zero-norm `axis1` on a fixed-type
descriptor is not rejected by the axis guard, and such a call proceeds
to the backend when its anchor resolves. -/
theorem C4_invalid_axis (env : Env) (b : Bool) (st : JMState)
    (d dfx : JointData) (reload : Bool)
    (h0 : d.axis1.squaredNorm = 0) (h1 : d.jtype ≠ JointType.fixed)
    (h0f : dfx.axis1.squaredNorm = 0) (h1f : dfx.jtype = JointType.fixed) :
    (addJoint env b d reload st).out = AddOutcome.invalidAxis ∧
    (addJoint env b d reload st).out.retVal = some 0 ∧
    (addJoint env b d reload st).st.next_joint_id = st.next_joint_id ∧
    (addJoint env b d reload st).st.simJoints = st.simJoints ∧
    getJointCount (addJoint env b d reload st).st = getJointCount st ∧
    invalidAxis1 dfx = false ∧
    ((resolveAnchor env dfx).isSome = true →
      Ev.callBackend ∈ (addJoint env b dfx reload st).tr) := by
  have hg : invalidAxis1 d = true := by
    simp [invalidAxis1, h0, h1, EPSILON_pos]
  have hgf : invalidAxis1 dfx = false := by
    simp [invalidAxis1, h1f]
  rw [addJoint_invalid env b d reload st hg]
  refine ⟨rfl, rfl, tplStore_next_joint_id d reload st,
          tplStore_simJoints d reload st,
          by simp [getJointCount, tplStore_simJoints], hgf, ?_⟩
  intro hanch
  obtain ⟨a, ha⟩ := Option.isSome_iff_exists.mp hanch
  cases b with
  | false =>
    rw [addJoint_backendFail env dfx reload st a hgf ha]
    simp
  | true =>
    rw [addJoint_ok env dfx reload st a hgf ha]
    simp

/-- Witness for C4: the degenerate hinge `dZero` is rejected on the
fresh registry, while the degenerate fixed joint `dFix` passes the axis
guard and reaches the backend. -/
theorem C4_invalid_axis_witness :
    (addJoint env0 true dZero false initState).out = AddOutcome.invalidAxis ∧
    getJointCount (addJoint env0 true dZero false initState).st
      = getJointCount initState ∧
    invalidAxis1 dFix = false ∧
    Ev.callBackend ∈ (addJoint env0 true dFix false initState).tr :=
  ⟨(C4_invalid_axis env0 true initState dZero dFix false
      (by with_unfolding_all decide) (by decide)
      (by with_unfolding_all decide) (by decide)).1,
   (C4_invalid_axis env0 true initState dZero dFix false
      (by with_unfolding_all decide) (by decide)
      (by with_unfolding_all decide) (by decide)).2.2.2.2.1,
   (C4_invalid_axis env0 true initState dZero dFix false
      (by with_unfolding_all decide) (by decide)
      (by with_unfolding_all decide) (by decide)).2.2.2.2.2.1,
   (C4_invalid_axis env0 true initState dZero dFix false
      (by with_unfolding_all decide) (by decide)
      (by with_unfolding_all decide) (by decide)).2.2.2.2.2.2 (by decide)⟩

/-- Claim C3 as stated is false in its error-surfacing part: a call
whose anchor policy requires a body absent from the lookup dies on an
`assert` and returns no value at all, so no distinct
`MissingAnchorBody` error is surfaced to the caller. -/
theorem C3_counterexample :
    (addJoint env0 true dMiss false initState).out = AddOutcome.assertFail ∧
    (addJoint env0 true dMiss false initState).out.retVal = none := by
  with_unfolding_all decide

/-- Claim C3 amended: when the anchor policy requires a body the
lookup cannot resolve (and the axis guard passed), creation is aborted
by an assertion failure before the backend call; the call never
returns, no record is stored and no id is consumed. -/
theorem C3_missing_anchor_aborts (env : Env) (b : Bool) (st : JMState)
    (d : JointData) (reload : Bool) (haxis : invalidAxis1 d = false)
    (hmiss : resolveAnchor env d = none) :
    (addJoint env b d reload st).out = AddOutcome.assertFail ∧
    (addJoint env b d reload st).out.retVal = none ∧
    Ev.callBackend ∉ (addJoint env b d reload st).tr ∧
    (addJoint env b d reload st).st.simJoints = st.simJoints ∧
    (addJoint env b d reload st).st.next_joint_id = st.next_joint_id := by
  rw [addJoint_assert env b d reload st haxis hmiss]
  refine ⟨rfl, rfl, ?_, tplStore_simJoints d reload st,
          tplStore_next_joint_id d reload st⟩
  cases reload <;> simp [tplTrace]

/-- Witness for the amended C3 at the descriptor `dMiss`, whose policy
requires absent body 2. -/
theorem C3_missing_anchor_aborts_witness :
    Ev.callBackend ∉ (addJoint env0 true dMiss false initState).tr ∧
    (addJoint env0 true dMiss false initState).st.next_joint_id
      = initState.next_joint_id :=
  ⟨(C3_missing_anchor_aborts env0 true initState dMiss false
      (by with_unfolding_all decide) (by decide)).2.2.1,
   (C3_missing_anchor_aborts env0 true initState dMiss false
      (by with_unfolding_all decide) (by decide)).2.2.2.2⟩

/-! ### Counter and invariant machinery for operation sequences -/

/-- Frame lemma: a call to `addJoint` either succeeds with the current
counter value, advancing the counter by one and inserting one record
under that key, or it changes neither the counter nor `simJoints`. -/
theorem addJoint_frame (env : Env) (b : Bool) (d : JointData) (reload : Bool)
    (st : JMState) :
    ((addJoint env b d reload st).out = AddOutcome.ok st.next_joint_id ∧
     (addJoint env b d reload st).st.next_joint_id = st.next_joint_id + 1 ∧
     ∃ q, (addJoint env b d reload st).st.simJoints
        = mapInsert st.next_joint_id q st.simJoints) ∨
    ((∀ v, (addJoint env b d reload st).out ≠ AddOutcome.ok v) ∧
     (addJoint env b d reload st).st.next_joint_id = st.next_joint_id ∧
     (addJoint env b d reload st).st.simJoints = st.simJoints) := by
  cases hax : invalidAxis1 d with
  | true =>
    right
    rw [addJoint_invalid env b d reload st hax]
    exact ⟨by simp, tplStore_next_joint_id d reload st, tplStore_simJoints d reload st⟩
  | false =>
    cases hanch : resolveAnchor env d with
    | none =>
      right
      rw [addJoint_assert env b d reload st hax hanch]
      exact ⟨by simp, tplStore_next_joint_id d reload st, tplStore_simJoints d reload st⟩
    | some a =>
      cases b with
      | false =>
        right
        rw [addJoint_backendFail env d reload st a hax hanch]
        exact ⟨by simp, tplStore_next_joint_id d reload st, tplStore_simJoints d reload st⟩
      | true =>
        left
        rw [addJoint_ok env d reload st a hax hanch]
        exact ⟨rfl, rfl, ⟨_, rfl⟩⟩

/-- A successful `addJoint` writes back, through its by-reference
argument, the descriptor with `index` set to the returned id and
`anchor` set to the resolved anchor. -/
theorem addJoint_ok_jointS (env : Env) (b : Bool) (d : JointData)
    (reload : Bool) (st : JMState) (v : Nat)
    (h : (addJoint env b d reload st).out = AddOutcome.ok v) :
    (addJoint env b d reload st).jointS
      = { d with index := v, anchor := (resolveAnchor env d).getD d.anchor } := by
  cases hax : invalidAxis1 d with
  | true =>
    rw [addJoint_invalid env b d reload st hax] at h
    simp at h
  | false =>
    cases hanch : resolveAnchor env d with
    | none =>
      rw [addJoint_assert env b d reload st hax hanch] at h
      simp at h
    | some a =>
      cases b with
      | false =>
        rw [addJoint_backendFail env d reload st a hax hanch] at h
        simp at h
      | true =>
        rw [addJoint_ok env d reload st a hax hanch] at h ⊢
        simp only [AddOutcome.ok.injEq] at h
        subst h
        simp [hanch]

theorem ctrFrom_append (c : Nat) (e1 e2 : List REv) :
    ctrFrom c (e1 ++ e2) = ctrFrom (ctrFrom c e1) e2 := by
  simp [ctrFrom, List.foldl_append]

theorem evsOK_nil (c : Nat) : evsOK c [] := by
  intro p j h
  simp at h

theorem evsOK_single_created (c : Nat) : evsOK c [REv.created c] := by
  intro p j hp
  cases p with
  | zero => simp_all [ctrFrom]
  | succ p' => simp at hp

theorem evsOK_single_cleared (c : Nat) : evsOK c [REv.cleared] := by
  intro p j hp
  cases p <;> simp at hp

theorem evsOK_append (c : Nat) (e1 e2 : List REv) (h1 : evsOK c e1)
    (h2 : evsOK (ctrFrom c e1) e2) : evsOK c (e1 ++ e2) := by
  intro p j hp
  by_cases hlt : p < e1.length
  · rw [List.getElem?_append_left hlt] at hp
    have hj := h1 p j hp
    rw [List.take_append_eq_append_take, Nat.sub_eq_zero_of_le (Nat.le_of_lt hlt),
        List.take_zero, List.append_nil]
    exact hj
  · push_neg at hlt
    rw [List.getElem?_append_right hlt] at hp
    have hj := h2 (p - e1.length) j hp
    rw [List.take_append_eq_append_take, List.take_of_length_le hlt,
        ctrFrom_append]
    exact hj

/-- The replay loop preserves counter consistency: the final counter is
the fold of the emitted creation events over the starting counter, and
every emitted id equals the counter value at its point of emission. -/
theorem reloadAux_ctr (env : Env) (bs : List Bool) (st : JMState)
    (l : List (Nat × JointData)) :
    (reloadAux env bs st l).st.next_joint_id
      = ctrFrom st.next_joint_id (outcomeEvents (reloadAux env bs st l).outs) ∧
    evsOK st.next_joint_id (outcomeEvents (reloadAux env bs st l).outs) := by
  induction l generalizing bs st with
  | nil => exact ⟨rfl, evsOK_nil _⟩
  | cons kv rest ih =>
    obtain ⟨k, d⟩ := kv
    rcases addJoint_frame env (bs.headD true) d true st with
      ⟨hok, hnext, _, hsim⟩ | ⟨hnok, hnext, hsim⟩
    · simp only [reloadAux, hok, outcomeEvents, List.filterMap_cons]
      constructor
      · show (reloadAux env bs.tail _ rest).st.next_joint_id
          = ctrFrom st.next_joint_id (REv.created st.next_joint_id :: _)
        have h2 : ctrFrom st.next_joint_id [REv.created st.next_joint_id]
            = st.next_joint_id + 1 := rfl
        show (reloadAux env bs.tail _ rest).st.next_joint_id
          = ctrFrom (st.next_joint_id + 1) _
        rw [← hnext]
        exact (ih bs.tail _).1
      · refine evsOK_append _ [REv.created st.next_joint_id] _
          (evsOK_single_created _) ?_
        show evsOK (st.next_joint_id + 1) _
        rw [← hnext]
        exact (ih bs.tail _).2
    · cases hout : (addJoint env (bs.headD true) d true st).out with
      | ok v => exact absurd hout (hnok v)
      | assertFail =>
        simp only [reloadAux, hout, outcomeEvents, List.filterMap]
        exact ⟨hnext, evsOK_nil _⟩
      | invalidAxis =>
        simp only [reloadAux, hout, outcomeEvents, List.filterMap_cons]
        rw [← hnext]
        exact ⟨(ih bs.tail _).1, (ih bs.tail _).2⟩
      | backendFail =>
        simp only [reloadAux, hout, outcomeEvents, List.filterMap_cons]
        rw [← hnext]
        exact ⟨(ih bs.tail _).1, (ih bs.tail _).2⟩

/-- Per-operation counter consistency. -/
theorem stepOp_ctr (env : Env) (st : JMState) (op : Op) :
    (stepOp env st op).1.next_joint_id
      = ctrFrom st.next_joint_id (stepOp env st op).2.1 ∧
    evsOK st.next_joint_id (stepOp env st op).2.1 := by
  cases op with
  | add b r d =>
    rcases addJoint_frame env b d r st with
      ⟨hok, hnext, _, hsim⟩ | ⟨hnok, hnext, hsim⟩
    · simp only [stepOp, hok]
      exact ⟨hnext, evsOK_single_created _⟩
    · cases hout : (addJoint env b d r st).out with
      | ok v => exact absurd hout (hnok v)
      | assertFail => simp only [stepOp, hout]; exact ⟨hnext, evsOK_nil _⟩
      | invalidAxis => simp only [stepOp, hout]; exact ⟨hnext, evsOK_nil _⟩
      | backendFail => simp only [stepOp, hout]; exact ⟨hnext, evsOK_nil _⟩
  | remove id => exact ⟨rfl, evsOK_nil _⟩
  | removeByIDs a b =>
    refine ⟨?_, evsOK_nil _⟩
    cases h : findMatch a b st.simJoints <;>
      simp [stepOp, removeJointByIDs, h, removeJoint, ctrFrom]
  | clearAll f => exact ⟨rfl, evsOK_single_cleared _⟩
  | reloadAll bs =>
    exact ⟨(reloadAux_ctr env bs st st.simJointsReload).1,
           (reloadAux_ctr env bs st st.simJointsReload).2⟩
  | edit d =>
    refine ⟨?_, evsOK_nil _⟩
    cases h : mapFind d.index st.simJoints <;>
      simp [stepOp, editJoint, h, ctrFrom]
  | scaleReload sx sy sz => exact ⟨rfl, evsOK_nil _⟩
  | setRelOffset id v =>
    refine ⟨?_, evsOK_nil _⟩
    cases h : mapFind id st.simJointsReload <;>
      simp [stepOp, setReloadJointOffset, h, ctrFrom]
  | setRelAxis id a =>
    refine ⟨?_, evsOK_nil _⟩
    cases h : mapFind id st.simJointsReload <;>
      simp [stepOp, setReloadJointAxis, h, ctrFrom]
  | setRelAnchor id a =>
    refine ⟨?_, evsOK_nil _⟩
    cases h : mapFind id st.simJointsReload <;>
      simp [stepOp, setReloadAnchor, h, ctrFrom]

/-- Counter consistency along any run. -/
theorem run_ctr (env : Env) (ops : List Op) (st : JMState) :
    (run env st ops).1.next_joint_id
      = ctrFrom st.next_joint_id (run env st ops).2 ∧
    evsOK st.next_joint_id (run env st ops).2 := by
  induction ops generalizing st with
  | nil => exact ⟨rfl, evsOK_nil _⟩
  | cons op ops ih =>
    rcases stepOp_ctr env st op with ⟨h1, h2⟩
    cases halive : (stepOp env st op).2.2 with
    | true =>
      simp only [run, halive, if_true]
      constructor
      · rw [ctrFrom_append, ← h1]
        exact (ih _).1
      · exact evsOK_append _ _ _ h2 (by rw [← h1]; exact (ih _).2)
    | false =>
      simp only [run, halive, if_false]
      exact ⟨h1, h2⟩

/-- Is the registry event a creation? -/
def isCreatedEv : REv → Bool
  | REv.created _ => true
  | REv.cleared => false

theorem ctrFrom_no_cleared (c : Nat) (l : List REv)
    (h : ∀ e ∈ l, e ≠ REv.cleared) :
    ctrFrom c l = c + l.countP isCreatedEv := by
  induction l generalizing c with
  | nil => simp [ctrFrom]
  | cons e rest ih =>
    cases e with
    | created j =>
      have hstep : ctrFrom c (REv.created j :: rest) = ctrFrom (c + 1) rest := rfl
      rw [hstep, ih (c + 1) (fun e he => h e (List.mem_cons_of_mem _ he))]
      simp [List.countP_cons, isCreatedEv]
      omega
    | cleared => exact absurd rfl (h REv.cleared (List.mem_cons_self _ _))

theorem ctrFrom_no_created (l : List REv)
    (h : ∀ e ∈ l, isCreatedEv e = false) : ctrFrom 1 l = 1 := by
  induction l with
  | nil => rfl
  | cons e rest ih =>
    cases e with
    | created j =>
      simpa [isCreatedEv] using h (REv.created j) (List.mem_cons_self _ _)
    | cleared =>
      have hstep : ctrFrom 1 (REv.cleared :: rest) = ctrFrom 1 rest := rfl
      rw [hstep, ih (fun e he => h e (List.mem_cons_of_mem _ he))]

/-- From counter consistency: between two creations with no clear in
between, the later id is strictly larger. -/
theorem evsOK_lt (c : Nat) (evs : List REv) (h : evsOK c evs) (p q i j : Nat)
    (hpq : p < q) (hp : evs[p]? = some (REv.created i))
    (hq : evs[q]? = some (REv.created j))
    (hmid : ∀ m, p < m → m < q → evs[m]? ≠ some REv.cleared) : i < j := by
  have hip := h p i hp
  have hjq := h q j hq
  set mid := (evs.take q).drop p with hmiddef
  have hsplit : evs.take q = evs.take p ++ mid := by
    have h1 := List.take_append_drop p (evs.take q)
    rw [List.take_take, Nat.min_eq_left (Nat.le_of_lt hpq)] at h1
    exact h1.symm
  have hidx : ∀ m, p + m < q → mid[m]? = evs[p + m]? := by
    intro m hm
    rw [hmiddef, List.getElem?_drop, List.getElem?_take, if_pos hm]
  have hm0 : mid[0]? = some (REv.created i) := by
    rw [hidx 0 (by omega)]
    simpa using hp
  have hlen : mid.length ≤ q - p := by
    rw [hmiddef]
    simp only [List.length_drop, List.length_take]
    omega
  have hnc : ∀ e ∈ mid, e ≠ REv.cleared := by
    intro e he hecl
    subst hecl
    obtain ⟨m, hm⟩ := List.mem_iff_getElem?.mp he
    have hmlt : m < mid.length := (List.getElem?_eq_some.mp hm).1
    have hmq : p + m < q := by omega
    cases Nat.eq_zero_or_pos m with
    | inl h0 =>
      subst h0
      rw [hm0] at hm
      exact REv.noConfusion (Option.some.injEq _ _ ▸ hm)
    | inr hpos =>
      exact hmid (p + m) (by omega) hmq (by rw [← hidx m hmq]; exact hm)
  have hcnt : 0 < mid.countP isCreatedEv :=
    List.countP_pos_iff.mpr ⟨REv.created i, List.getElem?_mem hm0, rfl⟩
  have hj2 : j = i + mid.countP isCreatedEv := by
    rw [hjq, hsplit, ctrFrom_append, ← hip, ctrFrom_no_cleared i mid hnc]
  omega

/-- From counter consistency: a creation after a clear with no creation
in between yields id 1. -/
theorem evsOK_reset (c : Nat) (evs : List REv) (h : evsOK c evs) (p q j : Nat)
    (hpq : p < q) (hp : evs[p]? = some REv.cleared)
    (hq : evs[q]? = some (REv.created j))
    (hmid : ∀ m i, p < m → m < q → evs[m]? ≠ some (REv.created i)) : j = 1 := by
  have hjq := h q j hq
  have hp1q : p + 1 ≤ q := hpq
  set mid := (evs.take q).drop (p + 1) with hmiddef
  have hsplit : evs.take q = evs.take (p + 1) ++ mid := by
    have h1 := List.take_append_drop (p + 1) (evs.take q)
    rw [List.take_take, Nat.min_eq_left hp1q] at h1
    exact h1.symm
  have htp : ctrFrom c (evs.take (p + 1)) = 1 := by
    rw [List.take_succ, hp]
    rw [ctrFrom_append]
    rfl
  have hidx : ∀ m, p + 1 + m < q → mid[m]? = evs[p + 1 + m]? := by
    intro m hm
    rw [hmiddef, List.getElem?_drop, List.getElem?_take, if_pos hm]
  have hlen : mid.length ≤ q - (p + 1) := by
    rw [hmiddef]
    simp only [List.length_drop, List.length_take]
    omega
  have hnc : ∀ e ∈ mid, isCreatedEv e = false := by
    intro e he
    cases e with
    | cleared => rfl
    | created i =>
      exfalso
      obtain ⟨m, hm⟩ := List.mem_iff_getElem?.mp he
      have hmlt : m < mid.length := (List.getElem?_eq_some.mp hm).1
      have hmq : p + 1 + m < q := by omega
      exact hmid (p + 1 + m) i (by omega) hmq (by rw [← hidx m hmq]; exact hm)
  rw [hjq, hsplit, ctrFrom_append, htp, ctrFrom_no_created mid hnc]

/-- Claim C2: over every operation sequence from a fresh registry,
successful creations hand out strictly increasing ids between clears; a
creation with no creation since the preceding clear hands out id 1; and
every handed-out id equals a counter that starts at 1, increments only
on success, and is reset to 1 by `clearAllJoints`. -/
theorem C2_monotonic_ids (env : Env) (ops : List Op) :
    (∀ p q i j : Nat, p < q →
      (runEvents env ops)[p]? = some (REv.created i) →
      (runEvents env ops)[q]? = some (REv.created j) →
      (∀ m : Nat, p < m → m < q → (runEvents env ops)[m]? ≠ some REv.cleared) →
      i < j) ∧
    (∀ p q j : Nat, p < q →
      (runEvents env ops)[p]? = some REv.cleared →
      (runEvents env ops)[q]? = some (REv.created j) →
      (∀ m i : Nat, p < m → m < q →
        (runEvents env ops)[m]? ≠ some (REv.created i)) →
      j = 1) ∧
    evsOK 1 (runEvents env ops) := by
  have h : evsOK 1 (runEvents env ops) := (run_ctr env ops initState).2
  exact ⟨fun p q i j hpq hp hq hmid => evsOK_lt 1 _ h p q i j hpq hp hq hmid,
         fun p q j hpq hp hq hmid => evsOK_reset 1 _ h p q j hpq hp hq hmid,
         h⟩

/-- Witness for C2: two successive creations hand out 1 then 2, and a
creation right after `clearAllJoints(true)` hands out 1 again. -/
theorem C2_monotonic_ids_witness :
    runEvents env0 [Op.add true false d0, Op.clearAll true, Op.add true false d0]
      = [REv.created 1, REv.cleared, REv.created 1] ∧
    (1 : Nat) < 2 ∧
    (1 : Nat) = 1 :=
  ⟨by with_unfolding_all decide,
   (C2_monotonic_ids env0 [Op.add true false d0, Op.add true false d0]).1
     0 1 1 2 (by decide) (by with_unfolding_all decide)
     (by with_unfolding_all decide) (by intro m hm1 hm2; omega),
   (C2_monotonic_ids env0
       [Op.add true false d0, Op.clearAll true, Op.add true false d0]).2.1
     1 2 1 (by decide) (by with_unfolding_all decide)
     (by with_unfolding_all decide) (by intro m i hm1 hm2; omega)⟩

/-! ### Reachable-state invariant -/

/-- The id counter is at least 1 and every active key is at least 1. -/
def WF (st : JMState) : Prop :=
  1 ≤ st.next_joint_id ∧ ∀ kv ∈ st.simJoints, 1 ≤ kv.1

theorem WF_init : WF initState :=
  ⟨Nat.le_refl 1, by simp [initState]⟩

theorem addJoint_WF (env : Env) (b : Bool) (d : JointData) (reload : Bool)
    (st : JMState) (h : WF st) : WF (addJoint env b d reload st).st := by
  rcases addJoint_frame env b d reload st with
    ⟨hok, hnext, q, hsim⟩ | ⟨hnok, hnext, hsim⟩
  · constructor
    · rw [hnext]
      omega
    · rw [hsim]
      intro kv hkv
      rcases mem_mapInsert kv _ _ _ hkv with hkv' | hkv'
      · rw [hkv']
        exact h.1
      · exact h.2 kv hkv'
  · constructor
    · rw [hnext]
      exact h.1
    · rw [hsim]
      exact h.2

theorem reloadAux_WF (env : Env) (bs : List Bool) (st : JMState)
    (l : List (Nat × JointData)) (h : WF st) : WF (reloadAux env bs st l).st := by
  induction l generalizing bs st with
  | nil => exact h
  | cons kv rest ih =>
    obtain ⟨k, d⟩ := kv
    have h1 := addJoint_WF env (bs.headD true) d true st h
    cases hout : (addJoint env (bs.headD true) d true st).out with
    | assertFail => simp only [reloadAux, hout]; exact h1
    | ok v => simp only [reloadAux, hout]; exact ih bs.tail _ h1
    | invalidAxis => simp only [reloadAux, hout]; exact ih bs.tail _ h1
    | backendFail => simp only [reloadAux, hout]; exact ih bs.tail _ h1

theorem stepOp_WF (env : Env) (st : JMState) (op : Op) (h : WF st) :
    WF (stepOp env st op).1 := by
  cases op with
  | add b r d =>
    have h1 := addJoint_WF env b d r st h
    cases hout : (addJoint env b d r st).out <;>
      simp only [stepOp, hout] <;> exact h1
  | remove id =>
    exact ⟨h.1, fun kv hkv => h.2 kv (mem_mapErase kv id st.simJoints hkv)⟩
  | removeByIDs a b =>
    cases hm : findMatch a b st.simJoints with
    | none => simp only [stepOp, removeJointByIDs, hm]; exact h
    | some k =>
      simp only [stepOp, removeJointByIDs, hm, removeJoint]
      exact ⟨h.1, fun kv hkv => h.2 kv (mem_mapErase kv k st.simJoints hkv)⟩
  | clearAll f => exact ⟨Nat.le_refl 1, by simp [stepOp, clearAllJoints]⟩
  | reloadAll bs => exact reloadAux_WF env bs st st.simJointsReload h
  | edit d =>
    cases hm : mapFind d.index st.simJoints with
    | none => simp only [stepOp, editJoint, hm]; exact h
    | some r =>
      simp only [stepOp, editJoint, hm]
      refine ⟨h.1, ?_⟩
      intro kv hkv
      rcases mem_mapInsert kv _ _ _ hkv with hkv' | hkv'
      · rw [hkv']
        exact h.2 (d.index, r) (mapFind_mem _ _ _ hm)
      · exact h.2 kv hkv'
  | scaleReload sx sy sz => exact ⟨h.1, h.2⟩
  | setRelOffset id v =>
    cases hm : mapFind id st.simJointsReload with
    | none => simp only [stepOp, setReloadJointOffset, hm]; exact h
    | some d => simp only [stepOp, setReloadJointOffset, hm]; exact ⟨h.1, h.2⟩
  | setRelAxis id a =>
    cases hm : mapFind id st.simJointsReload with
    | none => simp only [stepOp, setReloadJointAxis, hm]; exact h
    | some d => simp only [stepOp, setReloadJointAxis, hm]; exact ⟨h.1, h.2⟩
  | setRelAnchor id a =>
    cases hm : mapFind id st.simJointsReload with
    | none => simp only [stepOp, setReloadAnchor, hm]; exact h
    | some d => simp only [stepOp, setReloadAnchor, hm]; exact ⟨h.1, h.2⟩

theorem run_WF (env : Env) (ops : List Op) (st : JMState) (h : WF st) :
    WF (run env st ops).1 := by
  induction ops generalizing st with
  | nil => exact h
  | cons op ops ih =>
    cases halive : (stepOp env st op).2.2 with
    | true =>
      simp only [run, halive, if_true]
      exact ih _ (stepOp_WF env st op h)
    | false =>
      simp only [run, halive, if_false]
      exact stepOp_WF env st op h

theorem mapFind_zero_none {α : Type} (l : List (Nat × α))
    (h : ∀ kv ∈ l, 1 ≤ kv.1) : mapFind 0 l = none := by
  cases hf : mapFind 0 l with
  | none => rfl
  | some v => exact absurd (h (0, v) (mapFind_mem 0 v l hf)) (by omega)

/-- Claim C9: the two failure modes of `addJoint` that return (invalid
axis and backend refusal) both return 0 and are indistinguishable in
the returned value; success returns the current counter value, which on
every state reachable from a fresh registry is at least 1; and id 0 is
never a key of the active registry on any reachable state. -/
theorem C9_zero_failure_encoding :
    (∀ (env : Env) (b : Bool) (st : JMState) (d : JointData) (reload : Bool),
      invalidAxis1 d = true →
      (addJoint env b d reload st).out = AddOutcome.invalidAxis ∧
      (addJoint env b d reload st).out.retVal = some 0) ∧
    (∀ (env : Env) (st : JMState) (d : JointData) (reload : Bool),
      invalidAxis1 d = false → (resolveAnchor env d).isSome = true →
      (addJoint env false d reload st).out = AddOutcome.backendFail ∧
      (addJoint env false d reload st).out.retVal = some 0) ∧
    AddOutcome.invalidAxis.retVal = AddOutcome.backendFail.retVal ∧
    (∀ (env : Env) (st : JMState) (d : JointData) (reload : Bool),
      invalidAxis1 d = false → (resolveAnchor env d).isSome = true →
      (addJoint env true d reload st).out = AddOutcome.ok st.next_joint_id) ∧
    (∀ (env : Env) (ops : List Op),
      1 ≤ (run env initState ops).1.next_joint_id ∧
      mapFind 0 (run env initState ops).1.simJoints = none) ∧
    (∀ (env : Env) (ops : List Op) (b : Bool) (d : JointData)
       (reload : Bool) (v : Nat),
      (addJoint env b d reload (run env initState ops).1).out = AddOutcome.ok v →
      1 ≤ v) := by
  refine ⟨?_, ?_, rfl, ?_, ?_, ?_⟩
  · intro env b st d reload hax
    rw [addJoint_invalid env b d reload st hax]
    exact ⟨rfl, rfl⟩
  · intro env st d reload hax hanch
    obtain ⟨a, ha⟩ := Option.isSome_iff_exists.mp hanch
    rw [addJoint_backendFail env d reload st a hax ha]
    exact ⟨rfl, rfl⟩
  · intro env st d reload hax hanch
    obtain ⟨a, ha⟩ := Option.isSome_iff_exists.mp hanch
    rw [addJoint_ok env d reload st a hax ha]
  · intro env ops
    have hwf := run_WF env ops initState WF_init
    exact ⟨hwf.1, mapFind_zero_none _ hwf.2⟩
  · intro env ops b d reload v hout
    have hwf := run_WF env ops initState WF_init
    rcases addJoint_frame env b d reload (run env initState ops).1 with
      ⟨hok, _, _, _⟩ | ⟨hnok, _, _⟩
    · rw [hout] at hok
      have hv := AddOutcome.ok.inj hok
      have h1 := hwf.1
      omega
    · exact absurd hout (hnok v)

/-- Witness for C9: both failure modes return 0 on concrete inputs,
success returns the counter value 1 on the fresh registry, and 0 is not
a key after one successful creation. -/
theorem C9_zero_failure_encoding_witness :
    (addJoint env0 true dZero false initState).out.retVal = some 0 ∧
    (addJoint env0 false d0 false initState).out.retVal = some 0 ∧
    (addJoint env0 true d0 false initState).out
      = AddOutcome.ok initState.next_joint_id ∧
    mapFind 0 (run env0 initState [Op.add true false d0]).1.simJoints = none ∧
    (1 : Nat) ≤ 1 :=
  ⟨(C9_zero_failure_encoding.1 env0 true initState dZero false
      (by with_unfolding_all decide)).2,
   (C9_zero_failure_encoding.2.1 env0 initState d0 false
      (by with_unfolding_all decide) (by decide)).2,
   C9_zero_failure_encoding.2.2.2.1 env0 initState d0 false
      (by with_unfolding_all decide) (by decide),
   (C9_zero_failure_encoding.2.2.2.2.1 env0 [Op.add true false d0]).2,
   C9_zero_failure_encoding.2.2.2.2.2 env0 [] true d0 false 1
      (by with_unfolding_all decide)⟩

/-! ### In-place template mutation during reload -/

/-- What a successful replay leaves in a stored template: `index`
overwritten with the assigned id, `anchor` overwritten with the freshly
resolved anchor (unchanged for the explicit policy). -/
def reloadedTemplate (env : Env) (v : Nat) (d : JointData) : JointData :=
  { d with index := v, anchor := (resolveAnchor env d).getD d.anchor }

/-- The replay loop keeps the template keys and rewrites, at each
successfully replayed position, the stored value to the descriptor as
mutated through the by-reference `addJoint` argument. -/
theorem reloadAux_tmpl (env : Env) (bs : List Bool) (st : JMState)
    (l : List (Nat × JointData)) :
    (reloadAux env bs st l).tmpl.map Prod.fst = l.map Prod.fst ∧
    ∀ (p v : Nat), (reloadAux env bs st l).outs[p]? = some (AddOutcome.ok v) →
      (reloadAux env bs st l).tmpl[p]?
        = (l[p]?).map (fun kv => (kv.1, reloadedTemplate env v kv.2)) := by
  induction l generalizing bs st with
  | nil =>
    constructor
    · rfl
    · intro p v hp
      simp [reloadAux] at hp
  | cons kv rest ih =>
    obtain ⟨k, d⟩ := kv
    cases hout : (addJoint env (bs.headD true) d true st).out with
    | assertFail =>
      simp only [reloadAux, hout]
      constructor
      · rfl
      · intro p v hp
        cases p with
        | zero => simp at hp
        | succ p' => simp at hp
    | ok v0 =>
      simp only [reloadAux, hout]
      constructor
      · simp only [List.map_cons, List.cons.injEq, true_and]
        exact (ih bs.tail _).1
      · intro p v hp
        cases p with
        | zero =>
          simp only [List.getElem?_cons_zero, Option.some.injEq] at hp
          have hv : v0 = v := AddOutcome.ok.inj hp
          subst hv
          simp only [List.getElem?_cons_zero, Option.map_some]
          rw [addJoint_ok_jointS env (bs.headD true) d true st v0 hout]
          rfl
        | succ p' =>
          simp only [List.getElem?_cons_succ] at hp ⊢
          exact (ih bs.tail _).2 p' v hp
    | invalidAxis =>
      simp only [reloadAux, hout]
      constructor
      · simp only [List.map_cons, List.cons.injEq, true_and]
        exact (ih bs.tail _).1
      · intro p v hp
        cases p with
        | zero => simp at hp
        | succ p' =>
          simp only [List.getElem?_cons_succ] at hp ⊢
          exact (ih bs.tail _).2 p' v hp
    | backendFail =>
      simp only [reloadAux, hout]
      constructor
      · simp only [List.map_cons, List.cons.injEq, true_and]
        exact (ih bs.tail _).1
      · intro p v hp
        cases p with
        | zero => simp at hp
        | succ p' =>
          simp only [List.getElem?_cons_succ] at hp ⊢
          exact (ih bs.tail _).2 p' v hp

/-- Claim C10: `reloadJoints` hands each stored template by reference
to `addJoint` with `reload = true`, so every successful replay mutates
the stored template in place — its `index` becomes the newly assigned
id and its `anchor` the freshly resolved anchor — while the template
map keeps exactly its keys and entry count. -/
theorem C10_reload_mutates_in_place (env : Env) (bs : List Bool) (st : JMState) :
    (reloadJoints env bs st).st.simJointsReload = (reloadJoints env bs st).tmpl ∧
    (reloadJoints env bs st).tmpl.map Prod.fst
      = st.simJointsReload.map Prod.fst ∧
    (reloadJoints env bs st).tmpl.length = st.simJointsReload.length ∧
    ∀ (p v : Nat),
      (reloadJoints env bs st).outs[p]? = some (AddOutcome.ok v) →
      (reloadJoints env bs st).tmpl[p]?
        = (st.simJointsReload[p]?).map
            (fun kv => (kv.1, reloadedTemplate env v kv.2)) := by
  have h := reloadAux_tmpl env bs st st.simJointsReload
  refine ⟨rfl, h.1, ?_, h.2⟩
  have hlen := congrArg List.length h.1
  simpa using hlen

/-- Witness for C10: replaying the one-template registry `stA` (whose
template sits at key 7 with stale index 7) succeeds with id 2 and
rewrites the stored value in place to index 2 with the resolved anchor,
keeping key 7. -/
theorem C10_reload_mutates_in_place_witness :
    (reloadJoints env0 [true] stA).outs[0]? = some (AddOutcome.ok 2) ∧
    (reloadJoints env0 [true] stA).tmpl[0]?
      = (stA.simJointsReload[0]?).map
          (fun kv => (kv.1, reloadedTemplate env0 2 kv.2)) :=
  ⟨by with_unfolding_all decide,
   (C10_reload_mutates_in_place env0 [true] stA).2.2.2 0 2
     (by with_unfolding_all decide)⟩

end Mars
